import Mathlib

/-
Shallow embedding of `src/contracts/NFT_Portfolio_Fhe.sol` (contract
`NFTPortfolioFHE`).

Modelling conventions:
- Addresses, timestamps, batch ids, request ids are `Nat`.
- `euint32` ciphertext handles are modelled as an inductive term type
  `Euint32` recording the homomorphic expression; `FHE.add` / `FHE.mul` /
  `FHE.asEuint32` build terms, `isInitialized` is false exactly on the
  uninitialised default handle.  Serialisation (`toBytes32`) is the
  identity injection on handles.
- `keccak256(abi.encode(cts, address(this)))` is modelled as an injective
  commitment `B32.hash cts addr`; the Solidity default value `bytes32(0)`
  is the distinct constructor `B32.zero` (idealised collision-freeness).
- Solidity mappings are total functions with the Solidity zero-value
  default; `delete` writes the default.
- Each external function takes `msg.sender` (and `block.timestamp` where
  the body reads it) explicitly and returns `Except Err _`; a revert is
  `Except.error`, and the EVM rollback semantics is captured by `step`,
  which leaves the pre-state unchanged on error.
- `FHE.requestDecryption` returns a fresh id chosen by the external
  oracle; it is passed in as the parameter `rid`.  `FHE.checkSignatures`
  is an external capability passed in as the predicate `checkSig`.
  `abi.decode(cleartexts, (uint256))` is modelled by taking the cleartext
  as the already-decoded `Nat`.
-/

namespace NFTPortfolioFHE

/-- Ciphertext handles (`euint32`): the uninitialised default handle, an
externally supplied encrypted input, `FHE.asEuint32` of a constant, and the
homomorphic operations. -/
inductive Euint32 where
  | uninit : Euint32
  | handle : Nat → Euint32
  | constV : Nat → Euint32
  | add : Euint32 → Euint32 → Euint32
  | mul : Euint32 → Euint32 → Euint32
deriving DecidableEq, Repr

/-- `FHE.isInitialized`: false exactly on the uninitialised default handle. -/
def Euint32.isInitialized : Euint32 → Bool
  | .uninit => false
  | _ => true

/-- `euint32.toBytes32`: serialisation of a handle, modelled as the identity
injection. -/
def Euint32.toBytes32 (e : Euint32) : Euint32 := e

/-- `bytes32` values that occur as state hashes: the Solidity default
`bytes32(0)` and the keccak commitment over (ciphertext list, contract
address), modelled injectively. -/
inductive B32 where
  | zero : B32
  | hash : List Euint32 → Nat → B32
deriving DecidableEq, Repr

/-- Solidity struct `EncryptedNFT` (lines 20-23). -/
structure EncryptedNFT where
  encryptedValue : Euint32
  encryptedWeight : Euint32
deriving DecidableEq, Repr

/-- Solidity struct `DecryptionContext` (lines 27-31). -/
structure DecryptionContext where
  batchId : Nat
  stateHash : B32
  processed : Bool
deriving DecidableEq, Repr

/-- The zero value of `DecryptionContext`: what `decryptionContexts[rid]`
holds before any store at `rid`. -/
def defaultCtx : DecryptionContext := ⟨0, B32.zero, false⟩

/-- The contract's storage (lines 10-32) plus the fixed `address(this)`. -/
structure ContractState where
  owner : Nat
  isProvider : Nat → Bool
  paused : Bool
  cooldownSeconds : Nat
  lastSubmissionTime : Nat → Nat
  lastDecryptionRequestTime : Nat → Nat
  currentBatchId : Nat
  isBatchClosed : Nat → Bool
  portfolioEntries : Nat → List EncryptedNFT
  decryptionContexts : Nat → DecryptionContext

/-- The revert reasons (custom errors, lines 46-55). -/
inductive Err where
  | NotOwner
  | NotProvider
  | PausedError
  | CooldownActive
  | InvalidBatch
  | ReplayAttempt
  | StateMismatch
  | InvalidProof
  | BatchNotClosed
  | FHENotInitialized
deriving DecidableEq, Repr

/-- `_hashCiphertexts` (lines 211-213): keccak over the abi-encoding of the
ciphertext list together with `address(this)`, modelled as an injective
commitment. -/
def hashCiphertexts (cts : List Euint32) (thisAddr : Nat) : B32 :=
  B32.hash cts thisAddr

/-- The aggregation fold shared verbatim by `requestPortfolioValuation`
(lines 154-160) and `myCallback` (lines 194-198): starting from
`FHE.asEuint32(0)`, fold over the batch entries in order, adding
`value.mul(weight)` for each entry. -/
def aggregate (entries : List EncryptedNFT) : Euint32 :=
  entries.foldl
    (fun acc nft => acc.add (nft.encryptedValue.mul nft.encryptedWeight))
    (Euint32.constV 0)

/-- The constructor (lines 79-85): sets the owner, starts with batch 1 open,
default cooldown 60; all mappings hold their zero values. -/
def constructorState (deployer : Nat) : ContractState :=
  { owner := deployer
    isProvider := fun _ => false
    paused := false
    cooldownSeconds := 60
    lastSubmissionTime := fun _ => 0
    lastDecryptionRequestTime := fun _ => 0
    currentBatchId := 1
    isBatchClosed := fun _ => false
    portfolioEntries := fun _ => []
    decryptionContexts := fun _ => defaultCtx }

/-- `transferOwnership` (lines 87-90): onlyOwner; sets the owner. -/
def transferOwnership (s : ContractState) (sender newOwner : Nat) :
    Except Err ContractState :=
  if sender ≠ s.owner then .error .NotOwner
  else .ok { s with owner := newOwner }

/-- `addProvider` (lines 92-95): onlyOwner; sets the provider flag. -/
def addProvider (s : ContractState) (sender p : Nat) :
    Except Err ContractState :=
  if sender ≠ s.owner then .error .NotOwner
  else .ok { s with isProvider := fun a => if a = p then true else s.isProvider a }

/-- `removeProvider` (lines 97-100): onlyOwner; deletes the provider flag. -/
def removeProvider (s : ContractState) (sender p : Nat) :
    Except Err ContractState :=
  if sender ≠ s.owner then .error .NotOwner
  else .ok { s with isProvider := fun a => if a = p then false else s.isProvider a }

/-- `setPaused` (lines 102-110): onlyOwner; sets the paused flag. -/
def setPaused (s : ContractState) (sender : Nat) (b : Bool) :
    Except Err ContractState :=
  if sender ≠ s.owner then .error .NotOwner
  else .ok { s with paused := b }

/-- `setCooldownSeconds` (lines 112-115): onlyOwner; sets the cooldown. -/
def setCooldownSeconds (s : ContractState) (sender n : Nat) :
    Except Err ContractState :=
  if sender ≠ s.owner then .error .NotOwner
  else .ok { s with cooldownSeconds := n }

/-- `openNewBatch` (lines 117-121): onlyOwner, whenNotPaused; increments
`currentBatchId` and writes `false` into the new id's closed flag.  There is
no check on the status of the previous current batch. -/
def openNewBatch (s : ContractState) (sender : Nat) :
    Except Err ContractState :=
  if sender ≠ s.owner then .error .NotOwner
  else if s.paused then .error .PausedError
  else
    .ok { s with
           currentBatchId := s.currentBatchId + 1
           isBatchClosed := fun b =>
             if b = s.currentBatchId + 1 then false else s.isBatchClosed b }

/-- `closeCurrentBatch` (lines 123-127): onlyOwner, whenNotPaused; reverts
`InvalidBatch` if the current batch is already closed, else closes it. -/
def closeCurrentBatch (s : ContractState) (sender : Nat) :
    Except Err ContractState :=
  if sender ≠ s.owner then .error .NotOwner
  else if s.paused then .error .PausedError
  else if s.isBatchClosed s.currentBatchId then .error .InvalidBatch
  else
    .ok { s with
           isBatchClosed := fun b =>
             if b = s.currentBatchId then true else s.isBatchClosed b }

/-- `submitEncryptedNFT` (lines 129-146): onlyProvider, whenNotPaused,
respectCooldown (which reads `lastSubmissionTime`, lines 72-77); then the
two `_initIfNeeded` checks, then the closed-batch guard (which reverts
`BatchNotClosed` when the current batch IS closed), then the append and the
`lastSubmissionTime` update. -/
def submitEncryptedNFT (s : ContractState) (sender now : Nat)
    (encryptedValue encryptedWeight : Euint32) : Except Err ContractState :=
  if ! s.isProvider sender then .error .NotProvider
  else if s.paused then .error .PausedError
  else if now < s.lastSubmissionTime sender + s.cooldownSeconds then
    .error .CooldownActive
  else if ! encryptedValue.isInitialized then .error .FHENotInitialized
  else if ! encryptedWeight.isInitialized then .error .FHENotInitialized
  else if s.isBatchClosed s.currentBatchId then .error .BatchNotClosed
  else
    .ok { s with
           portfolioEntries := fun b =>
             if b = s.currentBatchId then
               s.portfolioEntries b ++ [⟨encryptedValue, encryptedWeight⟩]
             else s.portfolioEntries b
           lastSubmissionTime := fun a =>
             if a = sender then now else s.lastSubmissionTime a }

/-- `requestPortfolioValuation` (lines 148-175): whenNotPaused,
respectCooldown (which reads `lastSubmissionTime[msg.sender]`, lines 72-77,
NOT `lastDecryptionRequestTime`); requires the batch closed and non-empty;
updates `lastDecryptionRequestTime[msg.sender]`; computes the aggregate
ciphertext, hashes it, and stores a fresh `DecryptionContext` under the
oracle-chosen `rid` (the value returned by `FHE.requestDecryption`).
`thisAddr` is `address(this)`. -/
def requestPortfolioValuation (s : ContractState) (sender now batchId rid thisAddr : Nat) :
    Except Err ContractState :=
  if s.paused then .error .PausedError
  else if now < s.lastSubmissionTime sender + s.cooldownSeconds then
    .error .CooldownActive
  else if ! s.isBatchClosed batchId then .error .InvalidBatch
  else if (s.portfolioEntries batchId).length = 0 then .error .InvalidBatch
  else
    let encryptedTotalValue := aggregate (s.portfolioEntries batchId)
    let cts := [encryptedTotalValue.toBytes32]
    let stateHash := hashCiphertexts cts thisAddr
    .ok { s with
           lastDecryptionRequestTime := fun a =>
             if a = sender then now else s.lastDecryptionRequestTime a
           decryptionContexts := fun r =>
             if r = rid then ⟨batchId, stateHash, false⟩
             else s.decryptionContexts r }

/-- `myCallback` (lines 177-209): no modifiers and no use of `msg.sender`
(it is still passed in as `sender` since every external call carries one).
Replay check, then the empty-batch check, then recomputation of the
aggregate and of its commitment, the state-hash comparison, the external
signature check (`FHE.checkSignatures`, passed in as `checkSig`), and
finally the `processed := true` store.  The success value is the decoded
`totalValue` emitted by `PortfolioValuationCompleted`. -/
def myCallback (s : ContractState) (sender rid : Nat) (cleartexts proof : Nat)
    (checkSig : Nat → Nat → Nat → Bool) (thisAddr : Nat) :
    Except Err (ContractState × Nat) :=
  if (s.decryptionContexts rid).processed then .error .ReplayAttempt
  else
    let ctx := s.decryptionContexts rid
    let batchId := ctx.batchId
    if (s.portfolioEntries batchId).length = 0 then .error .InvalidBatch
    else
      let currentEncryptedTotalValue := aggregate (s.portfolioEntries batchId)
      let currentHash :=
        hashCiphertexts [currentEncryptedTotalValue.toBytes32] thisAddr
      if currentHash ≠ ctx.stateHash then .error .StateMismatch
      else if ! checkSig rid cleartexts proof then .error .InvalidProof
      else
        let totalValue := cleartexts
        .ok ({ s with
                decryptionContexts := fun r =>
                  if r = rid then ⟨ctx.batchId, ctx.stateHash, true⟩
                  else s.decryptionContexts r }, totalValue)

/-- One external call with its arguments, for reasoning about arbitrary
operation sequences. -/
inductive Op where
  | transferOwnership (sender newOwner : Nat)
  | addProvider (sender p : Nat)
  | removeProvider (sender p : Nat)
  | setPaused (sender : Nat) (b : Bool)
  | setCooldownSeconds (sender n : Nat)
  | openNewBatch (sender : Nat)
  | closeCurrentBatch (sender : Nat)
  | submit (sender now : Nat) (encryptedValue encryptedWeight : Euint32)
  | request (sender now batchId rid thisAddr : Nat)
  | callback (sender rid cleartexts proof : Nat)
      (checkSig : Nat → Nat → Nat → Bool) (thisAddr : Nat)

/-- EVM revert semantics: an errored call leaves the state unchanged. -/
def orRevert (s : ContractState) : Except Err ContractState → ContractState
  | .ok s1 => s1
  | .error _ => s

/-- Apply one external call to the state; a revert leaves it unchanged. -/
def step (s : ContractState) : Op → ContractState
  | .transferOwnership sender n => orRevert s (transferOwnership s sender n)
  | .addProvider sender p => orRevert s (addProvider s sender p)
  | .removeProvider sender p => orRevert s (removeProvider s sender p)
  | .setPaused sender b => orRevert s (setPaused s sender b)
  | .setCooldownSeconds sender n => orRevert s (setCooldownSeconds s sender n)
  | .openNewBatch sender => orRevert s (openNewBatch s sender)
  | .closeCurrentBatch sender => orRevert s (closeCurrentBatch s sender)
  | .submit sender now v w => orRevert s (submitEncryptedNFT s sender now v w)
  | .request sender now batchId rid thisAddr =>
      orRevert s (requestPortfolioValuation s sender now batchId rid thisAddr)
  | .callback sender rid ct pf cs thisAddr =>
      match myCallback s sender rid ct pf cs thisAddr with
      | .ok (s1, _) => s1
      | .error _ => s

/-- The state after deploying the contract and executing a sequence of
external calls. -/
def execTrace (deployer : Nat) (ops : List Op) : ContractState :=
  ops.foldl step (constructorState deployer)

/-- Whether a call succeeded. -/
def isOkE {α : Type} : Except Err α → Bool
  | .ok _ => true
  | .error _ => false

/-- The revert reason of a call, if any. -/
def errOf {α : Type} : Except Err α → Option Err
  | .ok _ => none
  | .error e => some e

/-- Whether an operation is a `closeCurrentBatch` call. -/
def Op.isClose : Op → Bool
  | .closeCurrentBatch _ => true
  | _ => false

/-- Reachable-state invariant: the current batch id is at least 1 (the
constructor starts at 1 and `openNewBatch` only increments), batch 0 never
holds entries, and ids above the current one are untouched (open flag false,
no entries) — they have never been allocated. -/
def Inv (s : ContractState) : Prop :=
  1 ≤ s.currentBatchId
  ∧ s.portfolioEntries 0 = []
  ∧ (∀ b, s.currentBatchId < b → s.isBatchClosed b = false)
  ∧ (∀ b, s.currentBatchId < b → s.portfolioEntries b = [])

lemma inv_constructor (d : Nat) : Inv (constructorState d) := by
  refine ⟨le_refl 1, rfl, fun b _ => rfl, fun b _ => rfl⟩

/-- Inversion of a successful `requestPortfolioValuation`: the gate
conditions held and the result state is the input with the requester's
`lastDecryptionRequestTime` stamped and a fresh pending context stored. -/
lemma request_ok {s : ContractState} {sender now batchId rid thisAddr : Nat}
    {s1 : ContractState}
    (h : requestPortfolioValuation s sender now batchId rid thisAddr = .ok s1) :
    s.paused = false
    ∧ ¬ now < s.lastSubmissionTime sender + s.cooldownSeconds
    ∧ s.isBatchClosed batchId = true
    ∧ (s.portfolioEntries batchId).length ≠ 0
    ∧ s1 = { s with
              lastDecryptionRequestTime := fun a =>
                if a = sender then now else s.lastDecryptionRequestTime a
              decryptionContexts := fun r =>
                if r = rid then
                  ⟨batchId,
                   hashCiphertexts
                     [(aggregate (s.portfolioEntries batchId)).toBytes32] thisAddr,
                   false⟩
                else s.decryptionContexts r } := by
  unfold requestPortfolioValuation at h
  split at h
  · exact absurd h (by simp)
  · rename_i hp
    split at h
    · exact absurd h (by simp)
    · rename_i hcd
      split at h
      · exact absurd h (by simp)
      · rename_i hcl
        split at h
        · exact absurd h (by simp)
        · rename_i hne
          simp only [Except.ok.injEq] at h
          refine ⟨by simpa using hp, hcd, by simpa using hcl, hne, h.symm⟩

/-- Inversion of a successful `myCallback`: the pending context existed and
was unprocessed, the batch was non-empty, the recomputed commitment matched
the stored one, the signature check passed, the emitted total is the decoded
cleartext, and the result state only flips the context's processed flag. -/
lemma myCallback_ok {s : ContractState} {sender rid cleartexts proof : Nat}
    {checkSig : Nat → Nat → Nat → Bool} {thisAddr : Nat}
    {s1 : ContractState} {v : Nat}
    (h : myCallback s sender rid cleartexts proof checkSig thisAddr = .ok (s1, v)) :
    (s.decryptionContexts rid).processed = false
    ∧ (s.portfolioEntries (s.decryptionContexts rid).batchId).length ≠ 0
    ∧ hashCiphertexts
        [(aggregate (s.portfolioEntries (s.decryptionContexts rid).batchId)).toBytes32]
        thisAddr
      = (s.decryptionContexts rid).stateHash
    ∧ checkSig rid cleartexts proof = true
    ∧ v = cleartexts
    ∧ s1 = { s with
              decryptionContexts := fun r =>
                if r = rid then
                  ⟨(s.decryptionContexts rid).batchId,
                   (s.decryptionContexts rid).stateHash, true⟩
                else s.decryptionContexts r } := by
  unfold myCallback at h
  split at h
  · exact absurd h (by simp)
  · rename_i hpr
    simp only [] at h
    split at h
    · exact absurd h (by simp)
    · rename_i hne
      split at h
      · exact absurd h (by simp)
      · rename_i hh
        split at h
        · exact absurd h (by simp)
        · rename_i hsig
          simp only [Except.ok.injEq, Prod.mk.injEq] at h
          refine ⟨by simpa using hpr, hne, by simpa using hh,
                  by simpa using hsig, h.2.symm, h.1.symm⟩

/-- Every operation preserves the reachable-state invariant. -/
lemma inv_step (s : ContractState) (op : Op) (h : Inv s) : Inv (step s op) := by
  obtain ⟨h1, h2, h3, h4⟩ := h
  cases op with
  | transferOwnership sender n =>
      by_cases hc : sender = s.owner <;>
        simp [step, transferOwnership, hc, orRevert] <;>
        exact ⟨h1, h2, h3, h4⟩
  | addProvider sender p =>
      by_cases hc : sender = s.owner <;> simp [step, addProvider, hc, orRevert] <;>
        exact ⟨h1, h2, h3, h4⟩
  | removeProvider sender p =>
      by_cases hc : sender = s.owner <;> simp [step, removeProvider, hc, orRevert] <;>
        exact ⟨h1, h2, h3, h4⟩
  | setPaused sender b =>
      by_cases hc : sender = s.owner <;> simp [step, setPaused, hc, orRevert] <;>
        exact ⟨h1, h2, h3, h4⟩
  | setCooldownSeconds sender n =>
      by_cases hc : sender = s.owner <;>
        simp [step, setCooldownSeconds, hc, orRevert] <;>
        exact ⟨h1, h2, h3, h4⟩
  | openNewBatch sender =>
      by_cases hc : sender = s.owner
      · by_cases hp : s.paused
        · simp [step, openNewBatch, hc, hp, orRevert]; exact ⟨h1, h2, h3, h4⟩
        · simp only [step, openNewBatch, hc, hp, orRevert, ne_eq,
            not_true_eq_false, if_false, ite_false, ite_true,
            Bool.false_eq_true, Inv]
          refine ⟨by omega, h2, ?_, ?_⟩
          · intro b hb
            rw [if_neg (by omega)]
            exact h3 b (by omega)
          · intro b hb
            exact h4 b (by omega)
      · simp [step, openNewBatch, hc, orRevert]; exact ⟨h1, h2, h3, h4⟩
  | closeCurrentBatch sender =>
      by_cases hc : sender = s.owner
      · by_cases hp : s.paused
        · simp [step, closeCurrentBatch, hc, hp, orRevert]; exact ⟨h1, h2, h3, h4⟩
        · by_cases hcl : s.isBatchClosed s.currentBatchId
          · simp [step, closeCurrentBatch, hc, hp, hcl, orRevert]
            exact ⟨h1, h2, h3, h4⟩
          · simp only [step, closeCurrentBatch, hc, hp, hcl, orRevert, ne_eq,
              not_true_eq_false, if_false, ite_false, ite_true,
              Bool.false_eq_true, Inv]
            refine ⟨h1, h2, ?_, h4⟩
            intro b hb
            rw [if_neg (by omega)]
            exact h3 b hb
      · simp [step, closeCurrentBatch, hc, orRevert]; exact ⟨h1, h2, h3, h4⟩
  | submit sender now v w =>
      simp only [step, submitEncryptedNFT]
      split
      · exact ⟨h1, h2, h3, h4⟩
      split
      · exact ⟨h1, h2, h3, h4⟩
      split
      · exact ⟨h1, h2, h3, h4⟩
      split
      · exact ⟨h1, h2, h3, h4⟩
      split
      · exact ⟨h1, h2, h3, h4⟩
      split
      · exact ⟨h1, h2, h3, h4⟩
      simp only [orRevert, Inv]
      refine ⟨h1, ?_, h3, ?_⟩
      · rw [if_neg (by omega)]
        exact h2
      · intro b hb
        rw [if_neg (by omega)]
        exact h4 b hb
  | request sender now batchId rid thisAddr =>
      simp only [step]
      cases hr : requestPortfolioValuation s sender now batchId rid thisAddr with
      | error e => simpa [orRevert, hr] using ⟨h1, h2, h3, h4⟩
      | ok s1 =>
          obtain ⟨-, -, -, -, hs1⟩ := request_ok hr
          simp only [orRevert, hs1]
          exact ⟨h1, h2, h3, h4⟩
  | callback sender rid ct pf cs thisAddr =>
      simp only [step]
      cases hm : myCallback s sender rid ct pf cs thisAddr with
      | error e => exact ⟨h1, h2, h3, h4⟩
      | ok p =>
          obtain ⟨s1, v⟩ := p
          obtain ⟨-, -, -, -, -, hs1⟩ := myCallback_ok hm
          simp only [hs1]
          exact ⟨h1, h2, h3, h4⟩

/-- Any property preserved by every operation holds after any sequence. -/
lemma foldl_step_pres (P : ContractState → Prop)
    (hstep : ∀ s op, P s → P (step s op)) :
    ∀ (ops : List Op) (s : ContractState), P s → P (ops.foldl step s) := by
  intro ops
  induction ops with
  | nil => intro s h; exact h
  | cons op ops ih =>
      intro s h
      exact ih _ (hstep s op h)

/-- Every reachable state satisfies the invariant. -/
lemma inv_execTrace (d : Nat) (ops : List Op) : Inv (execTrace d ops) :=
  foldl_step_pres Inv inv_step ops _ (inv_constructor d)

/-- Inversion of a successful `submitEncryptedNFT`: all gates held, the
current batch was open, and the result appends one entry to the current
batch and stamps the sender's `lastSubmissionTime`. -/
lemma submit_ok {s : ContractState} {sender now : Nat} {v w : Euint32}
    {s1 : ContractState}
    (h : submitEncryptedNFT s sender now v w = .ok s1) :
    s.isProvider sender = true ∧ s.paused = false
    ∧ ¬ now < s.lastSubmissionTime sender + s.cooldownSeconds
    ∧ v.isInitialized = true ∧ w.isInitialized = true
    ∧ s.isBatchClosed s.currentBatchId = false
    ∧ s1 = { s with
              portfolioEntries := fun b =>
                if b = s.currentBatchId then s.portfolioEntries b ++ [⟨v, w⟩]
                else s.portfolioEntries b
              lastSubmissionTime := fun a =>
                if a = sender then now else s.lastSubmissionTime a } := by
  unfold submitEncryptedNFT at h
  split at h
  · exact absurd h (by simp)
  · rename_i hprov
    split at h
    · exact absurd h (by simp)
    · rename_i hp
      split at h
      · exact absurd h (by simp)
      · rename_i hcd
        split at h
        · exact absurd h (by simp)
        · rename_i hv
          split at h
          · exact absurd h (by simp)
          · rename_i hw
            split at h
            · exact absurd h (by simp)
            · rename_i hcl
              simp only [Except.ok.injEq] at h
              refine ⟨by simpa using hprov, by simpa using hp, hcd,
                      by simpa using hv, by simpa using hw,
                      by simpa using hcl, h.symm⟩

/-
Concrete fixtures used by the witness theorems.
-/

/-- Fixture: owner 0, provider 7, batch 1 closed holding one entry. -/
def sClosed : ContractState :=
  { owner := 0
    isProvider := fun a => a == 7
    paused := false
    cooldownSeconds := 60
    lastSubmissionTime := fun _ => 0
    lastDecryptionRequestTime := fun _ => 0
    currentBatchId := 1
    isBatchClosed := fun b => b == 1
    portfolioEntries := fun b =>
      if b == 1 then [⟨.handle 1, .handle 2⟩] else []
    decryptionContexts := fun _ => defaultCtx }

/-- Fixture for C1: like `sClosed` but address 9 made a decryption request
at time 50 and has never submitted. -/
def sC1a : ContractState :=
  { sClosed with lastDecryptionRequestTime := fun a => if a = 9 then 50 else 0 }

/-- Fixture for C1: like `sClosed` but address 9 submitted at time 50 and
has never made a decryption request. -/
def sC1b : ContractState :=
  { sClosed with lastSubmissionTime := fun a => if a = 9 then 50 else 0 }

/-- Fixture: freshly deployed contract, then paused by the owner. -/
def sPaused : ContractState := { constructorState 0 with paused := true }

/-- Fixture: the state after a successful valuation request on `sClosed`
by address 9 at time 100 for batch 1, with oracle request id 42. -/
def sReq : ContractState :=
  orRevert sClosed (requestPortfolioValuation sClosed 9 100 1 42 0)

/-- Fixture: the state after the oracle's callback for request 42
successfully finalizes on `sReq`. -/
def sFin : ContractState :=
  step sReq (.callback 3 42 11 0 (fun _ _ _ => true) 0)

/-- Fixture for C10: the owner opens a new batch while batch 1 is still
open (so batch 1 is skipped), then pauses the contract. -/
def sStuck : ContractState :=
  execTrace 0 [.openNewBatch 0, .setPaused 0 true]

/-
Claim theorems.
-/

/-- Claim C1: the spec says the decryption-request cooldown gate depends
only on the caller's last-decryption-request timestamp.  The code's
`respectCooldown` modifier reads `lastSubmissionTime` instead (and
`lastDecryptionRequestTime` is written but never read), so the claim fails
on the code: at `sC1a`, address 9's last decryption request (time 50) is
within the 60-second cooldown at time 70, yet the valuation request
succeeds; at `sC1b`, address 9's decryption-request cooldown has elapsed
(no request ever made), yet the valuation request reverts with
`CooldownActive` because of a recent submission. -/
theorem valuation_cooldown_reads_submission_time :
    (70 < sC1a.lastDecryptionRequestTime 9 + sC1a.cooldownSeconds
      ∧ isOkE (requestPortfolioValuation sC1a 9 70 1 5 0) = true)
    ∧ (sC1b.lastDecryptionRequestTime 9 + sC1b.cooldownSeconds ≤ 70
      ∧ errOf (requestPortfolioValuation sC1b 9 70 1 5 0)
          = some Err.CooldownActive) := by
  refine ⟨⟨by decide, rfl⟩, ⟨by decide, rfl⟩⟩

/-- Claim C4, counterexample: on the freshly deployed contract the current
batch (id 1) is still open, yet the owner's `openNewBatch` call succeeds —
the function performs no check on the current batch's status, so the claim
that it fails while the current batch is open is false. -/
theorem openNewBatch_succeeds_while_current_open :
    (constructorState 0).isBatchClosed (constructorState 0).currentBatchId = false
    ∧ isOkE (openNewBatch (constructorState 0) 0) = true := by
  exact ⟨rfl, rfl⟩

/-- Claim C4, amended: `openNewBatch` (owner-only, not paused) performs no
check on the current batch's status and always succeeds, allocating the
fresh id `currentBatchId + 1`, which in every reachable state has never
been used (its closed flag is false and it holds no entries), so batch ids
are never reused. -/
theorem openNewBatch_always_allocates_fresh_id (d : Nat) (ops : List Op)
    (sender : Nat) (hown : sender = (execTrace d ops).owner)
    (hp : (execTrace d ops).paused = false) :
    isOkE (openNewBatch (execTrace d ops) sender) = true
    ∧ (step (execTrace d ops) (.openNewBatch sender)).currentBatchId
        = (execTrace d ops).currentBatchId + 1
    ∧ (execTrace d ops).isBatchClosed ((execTrace d ops).currentBatchId + 1)
        = false
    ∧ (execTrace d ops).portfolioEntries ((execTrace d ops).currentBatchId + 1)
        = [] := by
  obtain ⟨-, -, h3, h4⟩ := inv_execTrace d ops
  refine ⟨?_, ?_, h3 _ (by omega), h4 _ (by omega)⟩
  · simp [openNewBatch, hown, hp, isOkE]
  · simp [step, openNewBatch, hown, hp, orRevert]

/-- Witness for the amended C4 theorem at the freshly deployed contract. -/
theorem openNewBatch_always_allocates_fresh_id_witness :
    isOkE (openNewBatch (execTrace 0 []) 0) = true
    ∧ (step (execTrace 0 []) (.openNewBatch 0)).currentBatchId
        = (execTrace 0 []).currentBatchId + 1
    ∧ (execTrace 0 []).isBatchClosed ((execTrace 0 []).currentBatchId + 1)
        = false
    ∧ (execTrace 0 []).portfolioEntries ((execTrace 0 []).currentBatchId + 1)
        = [] :=
  openNewBatch_always_allocates_fresh_id 0 [] 0 rfl rfl

/-- Claim C7, counterexample: while paused, a non-owner's `openNewBatch`
call reverts with `NotOwner`, not with the paused error — the `onlyOwner`
modifier runs before `whenNotPaused` — so the claim that each of the four
gated operations aborts with the paused error whenever the flag is set is
false. -/
theorem paused_open_by_nonowner_reverts_notowner :
    sPaused.paused = true
    ∧ errOf (openNewBatch sPaused 5) = some Err.NotOwner
    ∧ Err.NotOwner ≠ Err.PausedError := by
  exact ⟨rfl, rfl, by decide⟩

/-- Claim C8: `myCallback` never reads `msg.sender`, so its outcome
(revert reason or success state and emitted total) is identical for any two
calling addresses on the same state and arguments. -/
theorem myCallback_ignores_caller (s : ContractState) (a b rid ct pf : Nat)
    (cs : Nat → Nat → Nat → Bool) (thisAddr : Nat) :
    myCallback s a rid ct pf cs thisAddr = myCallback s b rid ct pf cs thisAddr :=
  rfl

/-- Claim C9: in every reachable state, calling `myCallback` with a request
id whose context is still the zero value (never registered: processed =
false, batchId = 0) reverts with `InvalidBatch` — the replay check passes
and the empty-entries check fires on batch 0, which never holds entries —
and the state is unchanged. -/
theorem unregistered_request_reverts_invalid_batch (d : Nat) (ops : List Op)
    (rid sender ct pf : Nat) (cs : Nat → Nat → Nat → Bool) (thisAddr : Nat)
    (hctx : (execTrace d ops).decryptionContexts rid = defaultCtx) :
    myCallback (execTrace d ops) sender rid ct pf cs thisAddr
      = .error .InvalidBatch
    ∧ step (execTrace d ops) (.callback sender rid ct pf cs thisAddr)
      = execTrace d ops := by
  obtain ⟨-, h2, -, -⟩ := inv_execTrace d ops
  have hmain : myCallback (execTrace d ops) sender rid ct pf cs thisAddr
      = .error .InvalidBatch := by
    unfold myCallback
    simp [hctx, defaultCtx, h2]
  exact ⟨hmain, by simp [step, hmain]⟩

/-- Witness for C9 at the freshly deployed contract, request id 5. -/
theorem unregistered_request_reverts_invalid_batch_witness :
    myCallback (execTrace 0 []) 4 5 11 0 (fun _ _ _ => true) 0
      = .error .InvalidBatch
    ∧ step (execTrace 0 []) (.callback 4 5 11 0 (fun _ _ _ => true) 0)
      = execTrace 0 [] :=
  unregistered_request_reverts_invalid_batch 0 [] 5 4 11 0
    (fun _ _ _ => true) 0 rfl

/-- Claim C2: the aggregate is the same deterministic fold at request time
and at finalize time, so a successful request stores under the oracle's
request id exactly the commitment of the batch's aggregate, and on any
later state in which that batch's entry list and the stored context are
unchanged, `myCallback` never takes the `StateMismatch` abort. -/
theorem request_commitment_rederivable (s s1 s2 : ContractState)
    (sender now batchId rid thisAddr sender2 ct pf : Nat)
    (cs : Nat → Nat → Nat → Bool)
    (hreq : requestPortfolioValuation s sender now batchId rid thisAddr = .ok s1)
    (hent : s2.portfolioEntries batchId = s1.portfolioEntries batchId)
    (hctx : s2.decryptionContexts rid = s1.decryptionContexts rid) :
    (s1.decryptionContexts rid).stateHash
      = hashCiphertexts [(aggregate (s1.portfolioEntries batchId)).toBytes32]
          thisAddr
    ∧ (s1.decryptionContexts rid).batchId = batchId
    ∧ myCallback s2 sender2 rid ct pf cs thisAddr ≠ .error .StateMismatch := by
  obtain ⟨hp, hcd, hcl, hne, hs1⟩ := request_ok hreq
  subst hs1
  have hctxv : s2.decryptionContexts rid
      = ⟨batchId,
         hashCiphertexts [(aggregate (s.portfolioEntries batchId)).toBytes32]
           thisAddr,
         false⟩ := by
    rw [hctx]; simp
  have hent2 : s2.portfolioEntries batchId = s.portfolioEntries batchId := by
    rw [hent]
  refine ⟨by simp, by simp, ?_⟩
  unfold myCallback
  simp only [hctxv, hent2]
  simp [hne]
  split <;> simp

/-- Witness for C2: a concrete successful request on the closed one-entry
batch, finalized against the unchanged state. -/
theorem request_commitment_rederivable_witness :
    (sReq.decryptionContexts 42).stateHash
      = hashCiphertexts [(aggregate (sReq.portfolioEntries 1)).toBytes32] 0
    ∧ (sReq.decryptionContexts 42).batchId = 1
    ∧ myCallback sReq 3 42 11 0 (fun _ _ _ => true) 0
        ≠ .error .StateMismatch :=
  request_commitment_rederivable sClosed sReq sReq 9 100 1 42 0 3 11 0
    (fun _ _ _ => true) rfl rfl rfl

/-- Claim C3: once a `myCallback` call succeeds for a request id, the
context's processed flag is set, and a second call with the same request id
reverts with `ReplayAttempt` leaving the whole state unchanged. -/
theorem replay_second_call_reverts (s : ContractState)
    (sender rid ct pf : Nat) (cs : Nat → Nat → Nat → Bool) (thisAddr : Nat)
    (s1 : ContractState) (v : Nat) (sender2 ct2 pf2 : Nat)
    (cs2 : Nat → Nat → Nat → Bool) (thisAddr2 : Nat)
    (h : myCallback s sender rid ct pf cs thisAddr = .ok (s1, v)) :
    (s1.decryptionContexts rid).processed = true
    ∧ myCallback s1 sender2 rid ct2 pf2 cs2 thisAddr2 = .error .ReplayAttempt
    ∧ step s1 (.callback sender2 rid ct2 pf2 cs2 thisAddr2) = s1 := by
  obtain ⟨hpr, hne, hh, hsig, hv, hs1⟩ := myCallback_ok h
  have hproc : (s1.decryptionContexts rid).processed = true := by
    rw [hs1]; simp
  have h2 : myCallback s1 sender2 rid ct2 pf2 cs2 thisAddr2
      = .error .ReplayAttempt := by
    unfold myCallback
    simp [hproc]
  exact ⟨hproc, h2, by simp [step, h2]⟩

/-- Witness for C3: the concrete successful finalize of request 42, then a
second callback for the same id. -/
theorem replay_second_call_reverts_witness :
    (sFin.decryptionContexts 42).processed = true
    ∧ myCallback sFin 4 42 12 1 (fun _ _ _ => true) 0
        = .error .ReplayAttempt
    ∧ step sFin (.callback 4 42 12 1 (fun _ _ _ => true) 0) = sFin :=
  replay_second_call_reverts sReq 3 42 11 0 (fun _ _ _ => true) 0 sFin 11
    4 12 1 (fun _ _ _ => true) 0 rfl

/-- Claim C5: for a provider passing the pause, cooldown and
well-formedness gates, `submitEncryptedNFT` reverts exactly when the
current batch is closed — and the revert reason is the misleadingly named
`BatchNotClosed` — and no execution of submit ever appends an entry to any
closed batch. -/
theorem submit_rejects_exactly_closed_current (s : ContractState)
    (sender now : Nat) (v w : Euint32) (b : Nat) :
    (s.isProvider sender = true → s.paused = false →
      ¬ now < s.lastSubmissionTime sender + s.cooldownSeconds →
      v.isInitialized = true → w.isInitialized = true →
      errOf (submitEncryptedNFT s sender now v w)
        = if s.isBatchClosed s.currentBatchId then some Err.BatchNotClosed
          else none)
    ∧ (s.isBatchClosed b = true →
      (step s (.submit sender now v w)).portfolioEntries b
        = s.portfolioEntries b) := by
  constructor
  · intro hprov hp hcd hv hw
    by_cases hcl : s.isBatchClosed s.currentBatchId <;>
      simp [submitEncryptedNFT, hprov, hp, hcd, hv, hw, hcl, errOf]
  · intro hb
    simp only [step]
    cases hsub : submitEncryptedNFT s sender now v w with
    | error e => simp [orRevert]
    | ok s1 =>
        obtain ⟨-, -, -, -, -, hcl, hs1⟩ := submit_ok hsub
        subst hs1
        simp only [orRevert]
        rw [if_neg]
        intro heq
        rw [heq] at hb
        rw [hb] at hcl
        exact absurd hcl (by simp)

/-- Witness for C5 at the closed current batch of `sClosed`, provider 7. -/
theorem submit_rejects_exactly_closed_current_witness :
    errOf (submitEncryptedNFT sClosed 7 100 (.handle 1) (.handle 2))
      = some Err.BatchNotClosed
    ∧ (step sClosed (.submit 7 100 (.handle 1) (.handle 2))).portfolioEntries 1
      = sClosed.portfolioEntries 1 := by
  have h := submit_rejects_exactly_closed_current sClosed 7 100
    (.handle 1) (.handle 2) 1
  exact ⟨h.1 rfl rfl (by decide) rfl rfl, h.2 rfl⟩

/-- Frame facts about one step, for any invariant-satisfying state: the
current batch id never decreases; a closed flag never clears; only a
`closeCurrentBatch` call can change any closed flag; and a still-open batch
below the current id stays open and below the current id. -/
lemma step_frame (s : ContractState) (op : Op) (hInv : Inv s) (b : Nat) :
    s.currentBatchId ≤ (step s op).currentBatchId
    ∧ (s.isBatchClosed b = true → (step s op).isBatchClosed b = true)
    ∧ (Op.isClose op = false →
        (step s op).isBatchClosed b = s.isBatchClosed b)
    ∧ (b < s.currentBatchId → s.isBatchClosed b = false →
        b < (step s op).currentBatchId ∧ (step s op).isBatchClosed b = false) := by
  obtain ⟨h1, h2, h3, h4⟩ := hInv
  cases op with
  | transferOwnership sender n =>
      by_cases hc : sender = s.owner <;>
        simp [step, transferOwnership, hc, orRevert, Op.isClose] <;> tauto
  | addProvider sender p =>
      by_cases hc : sender = s.owner <;>
        simp [step, addProvider, hc, orRevert, Op.isClose] <;> tauto
  | removeProvider sender p =>
      by_cases hc : sender = s.owner <;>
        simp [step, removeProvider, hc, orRevert, Op.isClose] <;> tauto
  | setPaused sender bp =>
      by_cases hc : sender = s.owner <;>
        simp [step, setPaused, hc, orRevert, Op.isClose] <;> tauto
  | setCooldownSeconds sender n =>
      by_cases hc : sender = s.owner <;>
        simp [step, setCooldownSeconds, hc, orRevert, Op.isClose] <;> tauto
  | openNewBatch sender =>
      by_cases hc : sender = s.owner
      · by_cases hp : s.paused
        · simp [step, openNewBatch, hc, hp, orRevert, Op.isClose] <;> tauto
        · simp only [step, openNewBatch, hc, hp, orRevert, ne_eq,
            not_true_eq_false, if_false, ite_false, ite_true,
            Bool.false_eq_true, Op.isClose]
          refine ⟨by omega, ?_, ?_, ?_⟩
          · intro hb
            rw [if_neg]
            · exact hb
            · intro heq
              rw [heq] at hb
              rw [h3 (s.currentBatchId + 1) (by omega)] at hb
              exact absurd hb (by simp)
          · intro _
            by_cases heq : b = s.currentBatchId + 1
            · rw [if_pos heq, heq, h3 (s.currentBatchId + 1) (by omega)]
            · rw [if_neg heq]
          · intro hlt hopen
            refine ⟨by omega, ?_⟩
            rw [if_neg (by omega)]
            exact hopen
      · simp [step, openNewBatch, hc, orRevert, Op.isClose] <;> tauto
  | closeCurrentBatch sender =>
      by_cases hc : sender = s.owner
      · by_cases hp : s.paused
        · simp [step, closeCurrentBatch, hc, hp, orRevert, Op.isClose] <;> tauto
        · by_cases hcl : s.isBatchClosed s.currentBatchId
          · simp [step, closeCurrentBatch, hc, hp, hcl, orRevert, Op.isClose] <;>
              tauto
          · simp only [step, closeCurrentBatch, hc, hp, hcl, orRevert, ne_eq,
              not_true_eq_false, if_false, ite_false, ite_true,
              Bool.false_eq_true, Op.isClose]
            refine ⟨le_refl _, ?_, ?_, ?_⟩
            · intro hb
              by_cases heq : b = s.currentBatchId
              · rw [if_pos heq]
              · rw [if_neg heq]; exact hb
            · intro hfalse
              exact absurd hfalse (by simp)
            · intro hlt hopen
              refine ⟨hlt, ?_⟩
              rw [if_neg (by omega)]
              exact hopen
      · simp [step, closeCurrentBatch, hc, orRevert, Op.isClose] <;> tauto
  | submit sender now v w =>
      simp only [step]
      cases hsub : submitEncryptedNFT s sender now v w with
      | error e => simp [orRevert, Op.isClose]; tauto
      | ok s1 =>
          obtain ⟨-, -, -, -, -, -, hs1⟩ := submit_ok hsub
          subst hs1
          simp [orRevert, Op.isClose]; tauto
  | request sender now batchId rid thisAddr =>
      simp only [step]
      cases hr : requestPortfolioValuation s sender now batchId rid thisAddr with
      | error e => simp [orRevert, Op.isClose]; tauto
      | ok s1 =>
          obtain ⟨-, -, -, -, hs1⟩ := request_ok hr
          subst hs1
          simp [orRevert, Op.isClose]; tauto
  | callback sender rid ct pf cs thisAddr =>
      simp only [step]
      cases hm : myCallback s sender rid ct pf cs thisAddr with
      | error e => simp [Op.isClose]; tauto
      | ok p =>
          obtain ⟨s1, v⟩ := p
          obtain ⟨-, -, -, -, -, hs1⟩ := myCallback_ok hm
          subst hs1
          simp [Op.isClose]; tauto

/-- Claim C6: in every reachable state, the current batch id never
decreases and a successful `openNewBatch` strictly increments it; a closed
flag, once true, never clears; no operation other than `closeCurrentBatch`
changes any closed flag; and `closeCurrentBatch` on an already-closed
current batch reverts with `InvalidBatch`. -/
theorem batch_lifecycle_monotone (d : Nat) (ops : List Op) (op : Op) (b : Nat) :
    (execTrace d ops).currentBatchId ≤ (step (execTrace d ops) op).currentBatchId
    ∧ ((execTrace d ops).paused = false →
        (step (execTrace d ops)
          (.openNewBatch (execTrace d ops).owner)).currentBatchId
          = (execTrace d ops).currentBatchId + 1)
    ∧ ((execTrace d ops).isBatchClosed b = true →
        (step (execTrace d ops) op).isBatchClosed b = true)
    ∧ (Op.isClose op = false →
        (step (execTrace d ops) op).isBatchClosed b
          = (execTrace d ops).isBatchClosed b)
    ∧ ((execTrace d ops).paused = false →
        (execTrace d ops).isBatchClosed (execTrace d ops).currentBatchId = true →
        closeCurrentBatch (execTrace d ops) (execTrace d ops).owner
          = .error .InvalidBatch) := by
  have hf := step_frame (execTrace d ops) op (inv_execTrace d ops) b
  refine ⟨hf.1, ?_, hf.2.1, hf.2.2.1, ?_⟩
  · intro hp
    simp [step, openNewBatch, hp, orRevert]
  · intro hp hcl
    simp [closeCurrentBatch, hp, hcl]

/-- Witness for C6: after closing batch 1, an `openNewBatch` step preserves
batch 1's closed flag, a close of the already-closed batch reverts, and the
id increments. -/
theorem batch_lifecycle_monotone_witness :
    (execTrace 0 [.closeCurrentBatch 0]).currentBatchId
      ≤ (step (execTrace 0 [.closeCurrentBatch 0]) (.openNewBatch 0)).currentBatchId
    ∧ (step (execTrace 0 [.closeCurrentBatch 0])
        (.openNewBatch (execTrace 0 [.closeCurrentBatch 0]).owner)).currentBatchId
      = (execTrace 0 [.closeCurrentBatch 0]).currentBatchId + 1
    ∧ (step (execTrace 0 [.closeCurrentBatch 0]) (.openNewBatch 0)).isBatchClosed 1
      = true
    ∧ (step (execTrace 0 [.closeCurrentBatch 0]) (.openNewBatch 0)).isBatchClosed 1
      = (execTrace 0 [.closeCurrentBatch 0]).isBatchClosed 1
    ∧ closeCurrentBatch (execTrace 0 [.closeCurrentBatch 0])
        (execTrace 0 [.closeCurrentBatch 0]).owner
      = .error .InvalidBatch := by
  have h := batch_lifecycle_monotone 0 [.closeCurrentBatch 0] (.openNewBatch 0) 1
  exact ⟨h.1, h.2.1 rfl, h.2.2.1 rfl, h.2.2.2.1 rfl, h.2.2.2.2 rfl rfl⟩

/-- Claim C7, amended: while paused, `openNewBatch`, `closeCurrentBatch`,
`submitEncryptedNFT` and `requestPortfolioValuation` all revert and leave
the state unchanged; the revert reason is `PausedError` whenever the caller
passes the preceding role gate (owner for open/close, provider for submit;
the valuation request has no role gate and always reverts `PausedError`),
and `NotOwner`/`NotProvider` otherwise; ownership transfer and provider
management are not pause-gated and succeed for the owner while paused. -/
theorem pause_gating_amended (s : ContractState)
    (sender newOwner p now batchId rid thisAddr : Nat) (v w : Euint32)
    (hp : s.paused = true) :
    errOf (openNewBatch s sender)
      = some (if sender = s.owner then Err.PausedError else Err.NotOwner)
    ∧ errOf (closeCurrentBatch s sender)
      = some (if sender = s.owner then Err.PausedError else Err.NotOwner)
    ∧ errOf (submitEncryptedNFT s sender now v w)
      = some (if s.isProvider sender then Err.PausedError else Err.NotProvider)
    ∧ requestPortfolioValuation s sender now batchId rid thisAddr
      = .error .PausedError
    ∧ step s (.openNewBatch sender) = s
    ∧ step s (.closeCurrentBatch sender) = s
    ∧ step s (.submit sender now v w) = s
    ∧ step s (.request sender now batchId rid thisAddr) = s
    ∧ (sender = s.owner →
        transferOwnership s sender newOwner = .ok { s with owner := newOwner }
        ∧ isOkE (addProvider s sender p) = true
        ∧ isOkE (removeProvider s sender p) = true) := by
  refine ⟨?_, ?_, ?_, ?_, ?_, ?_, ?_, ?_, ?_⟩
  · by_cases hc : sender = s.owner <;> simp [openNewBatch, hc, hp, errOf]
  · by_cases hc : sender = s.owner <;> simp [closeCurrentBatch, hc, hp, errOf]
  · by_cases hpr : s.isProvider sender <;>
      simp [submitEncryptedNFT, hpr, hp, errOf]
  · simp [requestPortfolioValuation, hp]
  · by_cases hc : sender = s.owner <;>
      simp [step, openNewBatch, hc, hp, orRevert]
  · by_cases hc : sender = s.owner <;>
      simp [step, closeCurrentBatch, hc, hp, orRevert]
  · by_cases hpr : s.isProvider sender <;>
      simp [step, submitEncryptedNFT, hpr, hp, orRevert]
  · simp [step, requestPortfolioValuation, hp, orRevert]
  · intro hc
    refine ⟨?_, ?_, ?_⟩ <;>
      simp [transferOwnership, addProvider, removeProvider, hc, isOkE]

/-- Witness for the amended C7 theorem on the paused fresh deployment. -/
theorem pause_gating_amended_witness :
    sPaused.paused = true
    ∧ errOf (openNewBatch sPaused 0) = some Err.PausedError
    ∧ errOf (submitEncryptedNFT sPaused 0 0 (.handle 1) (.handle 2))
        = some Err.NotProvider
    ∧ requestPortfolioValuation sPaused 0 0 1 0 0 = .error .PausedError
    ∧ step sPaused (.openNewBatch 0) = sPaused
    ∧ transferOwnership sPaused 0 3 = .ok { sPaused with owner := 3 }
    ∧ isOkE (addProvider sPaused 0 4) = true := by
  have h := pause_gating_amended sPaused 0 3 4 0 1 0 0 (.handle 1) (.handle 2) rfl
  exact ⟨rfl, h.1, h.2.2.1, h.2.2.2.1, h.2.2.2.2.1,
         (h.2.2.2.2.2.2.2.2 rfl).1, (h.2.2.2.2.2.2.2.2 rfl).2.1⟩

/-- A valuation request on an open batch never succeeds; it reverts with
`InvalidBatch` whenever the caller passes the pause and cooldown gates. -/
lemma request_on_open_fails (s : ContractState) (sender now b rid thisAddr : Nat)
    (hb : s.isBatchClosed b = false) :
    isOkE (requestPortfolioValuation s sender now b rid thisAddr) = false
    ∧ (s.paused = false →
        ¬ now < s.lastSubmissionTime sender + s.cooldownSeconds →
        requestPortfolioValuation s sender now b rid thisAddr
          = .error .InvalidBatch) := by
  constructor
  · unfold requestPortfolioValuation
    split
    · simp [isOkE]
    · split
      · simp [isOkE]
      · simp [hb, isOkE]
  · intro hp hcd
    simp [requestPortfolioValuation, hp, hcd, hb]

/-- Claim C10, counterexample: batch 1 was skipped (still open, below the
current id) and the contract is paused; a valuation request on batch 1 then
reverts with `PausedError`, not `InvalidBatch`, so the claim that every
request on a stuck batch aborts with `InvalidBatch` is false as stated. -/
theorem stuck_batch_request_while_paused_reverts_paused :
    1 < sStuck.currentBatchId
    ∧ sStuck.isBatchClosed 1 = false
    ∧ errOf (requestPortfolioValuation sStuck 9 100 1 5 0)
        = some Err.PausedError
    ∧ Err.PausedError ≠ Err.InvalidBatch := by
  exact ⟨by decide, rfl, rfl, by decide⟩

/-- Claim C10, amended: if a batch below the current id is still open in a
reachable state, then after any further operation sequence it is still open
and still below the current id — `closeCurrentBatch` only ever touches the
current batch — so it can never be closed; every valuation request on it
fails, with `InvalidBatch` whenever the caller passes the pause and
cooldown gates. -/
theorem skipped_batch_stuck_open (d : Nat) (ops ops2 : List Op)
    (b sender now rid thisAddr : Nat)
    (hb : b < (execTrace d ops).currentBatchId)
    (hopen : (execTrace d ops).isBatchClosed b = false) :
    b < (ops2.foldl step (execTrace d ops)).currentBatchId
    ∧ (ops2.foldl step (execTrace d ops)).isBatchClosed b = false
    ∧ isOkE (requestPortfolioValuation (ops2.foldl step (execTrace d ops))
        sender now b rid thisAddr) = false
    ∧ ((ops2.foldl step (execTrace d ops)).paused = false →
        ¬ now < (ops2.foldl step (execTrace d ops)).lastSubmissionTime sender
            + (ops2.foldl step (execTrace d ops)).cooldownSeconds →
        requestPortfolioValuation (ops2.foldl step (execTrace d ops))
          sender now b rid thisAddr = .error .InvalidBatch) := by
  have hP := foldl_step_pres
    (fun st => Inv st ∧ b < st.currentBatchId ∧ st.isBatchClosed b = false)
    (fun st op h => ⟨inv_step st op h.1,
      (step_frame st op h.1 b).2.2.2 h.2.1 h.2.2⟩)
    ops2 _ ⟨inv_execTrace d ops, hb, hopen⟩
  have hr := request_on_open_fails _ sender now b rid thisAddr hP.2.2
  exact ⟨hP.2.1, hP.2.2, hr.1, hr.2⟩

/-- Witness for the amended C10 theorem: batch 1 skipped by an extra open. -/
theorem skipped_batch_stuck_open_witness :
    1 < (([] : List Op).foldl step (execTrace 0 [.openNewBatch 0])).currentBatchId
    ∧ (([] : List Op).foldl step (execTrace 0 [.openNewBatch 0])).isBatchClosed 1
      = false
    ∧ isOkE (requestPortfolioValuation
        (([] : List Op).foldl step (execTrace 0 [.openNewBatch 0]))
        9 100 1 5 0) = false
    ∧ requestPortfolioValuation
        (([] : List Op).foldl step (execTrace 0 [.openNewBatch 0]))
        9 100 1 5 0 = .error .InvalidBatch := by
  have h := skipped_batch_stuck_open 0 [.openNewBatch 0] [] 1 9 100 5 0
    (by decide) rfl
  exact ⟨h.1, h.2.1, h.2.2.1, h.2.2.2 rfl (by decide)⟩

end NFTPortfolioFHE
